import Mathlib

/-!
Verification of the genart coordinate-conversion layer
(`src/lib/coordinateUtils.ts`) and the prediction polling loop
(`src/components/VectorGraphicsForm.tsx`), shallowly embedded over ℚ.
JavaScript numbers are modelled as exact rationals; `Math.round`,
`Math.min` and the JS `%` operator (truncated remainder) are modelled
explicitly below.
-/

namespace GenArt

/-- JS truncation toward zero, used by the JS `%` operator. -/
def jsTrunc (q : ℚ) : ℤ := if 0 ≤ q then ⌊q⌋ else ⌈q⌉

/-- The JS remainder operator `a % n` (result carries the sign of `a`). -/
def jsMod (a n : ℚ) : ℚ := a - n * (jsTrunc (a / n) : ℚ)

/-- `Math.round`: round half toward positive infinity. -/
def jsRound (q : ℚ) : ℤ := ⌊q + 1 / 2⌋

/-- `Math.min` on two numbers. -/
def jsMin (a b : ℚ) : ℚ := if a ≤ b then a else b

/-- `pythonToJsRotation` from coordinateUtils.ts: scale by 55.6635311,
take JS `% 360`, and add 360 if the result is negative. -/
def pythonToJsRotation (r : ℚ) : ℚ :=
  let j := jsMod (r * 55.6635311) 360
  if j < 0 then j + 360 else j

/-- `jsToPythonRotation` from coordinateUtils.ts. -/
def jsToPythonRotation (r : ℚ) : ℚ := r / 55.6635311

/-- `pythonToJsScale` from coordinateUtils.ts. -/
def pythonToJsScale (scale squeeze shear : ℚ) : ℚ :=
  scale * 0.80003054 + squeeze * 0.017701143 + shear * 0.016935179

/-- `jsToPythonScale` from coordinateUtils.ts. -/
def jsToPythonScale (scale squeeze : ℚ) : ℚ :=
  (scale - squeeze * 0.0642944) / 0.80003054

/-- `pythonToJsSqueeze` from coordinateUtils.ts. -/
def pythonToJsSqueeze (scale squeeze : ℚ) : ℚ :=
  scale * 0.064294401 + squeeze * 0.00870305

/-- `jsToPythonSqueeze` from coordinateUtils.ts (identity passthrough). -/
def jsToPythonSqueeze (squeeze : ℚ) : ℚ := squeeze

/-- `pythonToJsShear` from coordinateUtils.ts (the first parameter is
named `squeeze` in the source). -/
def pythonToJsShear (squeeze shear : ℚ) : ℚ :=
  squeeze * 0.013955148 + shear * 0.939783266

/-- `jsToPythonShear` from coordinateUtils.ts. -/
def jsToPythonShear (shear scale : ℚ) : ℚ :=
  (shear - scale * 0.01693518) / 0.93978327

/-- `pythonToJsColor` from coordinateUtils.ts:
`Math.min(Math.round(color * 256), 255)` (note: no lower clamp). -/
def pythonToJsColor (c : ℚ) : ℚ := jsMin ((jsRound (c * 256) : ℤ) : ℚ) 255

/-- `jsToPythonColor` from coordinateUtils.ts. -/
def jsToPythonColor (c : ℚ) : ℚ := c / 256

/-- Modelled from the spec (for comparison with `pythonToJsColor`): the
color conversion as the spec states it, `clamp(round(remote*256), 0, 255)`,
including a lower clamp at 0. -/
def specClampColor (c : ℚ) : ℚ := ((max 0 (min (jsRound (c * 256)) 255) : ℤ) : ℚ)

lemma jsMin_eq_min (a b : ℚ) : jsMin a b = min a b := by
  rw [jsMin, min_def]

lemma jsMod_bounds_of_nonneg (a : ℚ) (h : 0 ≤ a) :
    0 ≤ jsMod a 360 ∧ jsMod a 360 < 360 := by
  have hq : (0 : ℚ) ≤ a / 360 := by positivity
  have htr : jsTrunc (a / 360) = ⌊a / 360⌋ := if_pos hq
  have h1 : ((⌊a / 360⌋ : ℤ) : ℚ) ≤ a / 360 := Int.floor_le _
  have h2 : a / 360 < (⌊a / 360⌋ : ℚ) + 1 := Int.lt_floor_add_one _
  have h3 : ((⌊a / 360⌋ : ℤ) : ℚ) * 360 ≤ a :=
    (le_div_iff₀ (by norm_num : (0 : ℚ) < 360)).mp h1
  have h4 : a < ((⌊a / 360⌋ : ℚ) + 1) * 360 :=
    (div_lt_iff₀ (by norm_num : (0 : ℚ) < 360)).mp h2
  rw [jsMod, htr]
  constructor <;> nlinarith

lemma jsMod_bounds_of_neg (a : ℚ) (h : a < 0) :
    -360 < jsMod a 360 ∧ jsMod a 360 ≤ 0 := by
  have hq : ¬ (0 : ℚ) ≤ a / 360 := by
    rw [not_le]
    exact div_neg_of_neg_of_pos h (by norm_num)
  have htr : jsTrunc (a / 360) = ⌈a / 360⌉ := if_neg hq
  have h1 : a / 360 ≤ ((⌈a / 360⌉ : ℤ) : ℚ) := Int.le_ceil _
  have h2 : ((⌈a / 360⌉ : ℤ) : ℚ) < a / 360 + 1 := Int.ceil_lt_add_one _
  have h3 : a ≤ ((⌈a / 360⌉ : ℤ) : ℚ) * 360 :=
    (div_le_iff₀ (by norm_num : (0 : ℚ) < 360)).mp h1
  have h4 : ((⌈a / 360⌉ : ℤ) : ℚ) * 360 < (a / 360 + 1) * 360 := by
    have : (0 : ℚ) < 360 := by norm_num
    exact mul_lt_mul_of_pos_right h2 this
  have h5 : (a / 360 + 1) * 360 = a + 360 := by field_simp
  rw [jsMod, htr]
  constructor <;> nlinarith

/-- C6: `pythonToJsRotation r` equals `r * 55.6635311` reduced modulo 360
(it differs from it by an integer multiple of 360) and always lies in
`[0, 360)`. -/
theorem c6_rotation_range (r : ℚ) :
    (∃ k : ℤ, pythonToJsRotation r = r * 55.6635311 - 360 * (k : ℚ)) ∧
    0 ≤ pythonToJsRotation r ∧ pythonToJsRotation r < 360 := by
  set a := r * 55.6635311 with ha
  rcases le_or_lt 0 a with hpos | hneg
  · obtain ⟨hb1, hb2⟩ := jsMod_bounds_of_nonneg a hpos
    have hnotneg : ¬ jsMod a 360 < 0 := not_lt.mpr hb1
    have hval : pythonToJsRotation r = jsMod a 360 := by
      rw [pythonToJsRotation]
      exact if_neg hnotneg
    refine ⟨⟨jsTrunc (a / 360), ?_⟩, ?_, ?_⟩
    · rw [hval, jsMod]
    · rw [hval]; exact hb1
    · rw [hval]; exact hb2
  · obtain ⟨hb1, hb2⟩ := jsMod_bounds_of_neg a hneg
    rcases lt_or_eq_of_le hb2 with hlt | heq
    · have hval : pythonToJsRotation r = jsMod a 360 + 360 := by
        rw [pythonToJsRotation]
        exact if_pos hlt
      refine ⟨⟨jsTrunc (a / 360) - 1, ?_⟩, ?_, ?_⟩
      · rw [hval, jsMod]; push_cast; ring
      · rw [hval]; linarith
      · rw [hval]; linarith
    · have hval : pythonToJsRotation r = jsMod a 360 := by
        rw [pythonToJsRotation]
        exact if_neg (by rw [heq]; exact lt_irrefl 0)
      refine ⟨⟨jsTrunc (a / 360), ?_⟩, ?_, ?_⟩
      · rw [hval, jsMod]
      · rw [hval, heq]
      · rw [hval, heq]; norm_num

/-- C5 counterexample: at rotation `r = 10` (well away from any modulo wrap
boundary, which sit at multiples of `360 / 55.6635311 ≈ 6.47`), the
forward-then-reverse rotation round trip misses `r` by about `6.47`,
far more than the claimed `1e-6` tolerance. -/
theorem c5_counterexample :
    ¬ |jsToPythonRotation (pythonToJsRotation 10) - 10| < 1 / 1000000 := by
  have hq : (0 : ℚ) ≤ 10 * 55.6635311 / 360 := by norm_num
  have hfl : ⌊(10 * 55.6635311 / 360 : ℚ)⌋ = 1 := by
    rw [Int.floor_eq_iff]
    norm_num
  have hmod : jsMod (10 * 55.6635311) 360 = 196.635311 := by
    rw [jsMod, jsTrunc, if_pos hq, hfl]
    norm_num
  have hrot : pythonToJsRotation 10 = 196.635311 := by
    rw [pythonToJsRotation]
    simp only [hmod]
    rw [if_neg (by norm_num)]
  rw [not_lt, hrot, jsToPythonRotation]
  have hneg : (196.635311 : ℚ) / 55.6635311 - 10 < 0 := by
    rw [sub_neg, div_lt_iff₀ (by norm_num : (0 : ℚ) < 55.6635311)]
    norm_num
  rw [abs_of_neg hneg, neg_sub]
  norm_num

/-- C5 amended: the rotation round trip is exact (in exact arithmetic) for
`r` with `0 ≤ r` and `r * 55.6635311 < 360`, i.e. inside the principal
modulo window; and each color channel round trip on `[0,1]` is within the
quantization tolerance `1/256` (not within floating-point tolerance). -/
theorem c5_amended :
    (∀ r : ℚ, 0 ≤ r → r * 55.6635311 < 360 →
      jsToPythonRotation (pythonToJsRotation r) = r) ∧
    (∀ c : ℚ, 0 ≤ c → c ≤ 1 →
      |jsToPythonColor (pythonToJsColor c) - c| ≤ 1 / 256) := by
  constructor
  · intro r h0 hlt
    have ha : (0 : ℚ) ≤ r * 55.6635311 := by positivity
    have hq : (0 : ℚ) ≤ r * 55.6635311 / 360 := by positivity
    have hfl : ⌊r * 55.6635311 / 360⌋ = 0 := by
      rw [Int.floor_eq_zero_iff]
      constructor
      · exact hq
      · rw [div_lt_one (by norm_num : (0 : ℚ) < 360)]
        exact hlt
    have hmod : jsMod (r * 55.6635311) 360 = r * 55.6635311 := by
      rw [jsMod, jsTrunc, if_pos hq, hfl]
      push_cast
      ring
    have hrot : pythonToJsRotation r = r * 55.6635311 := by
      rw [pythonToJsRotation]
      simp only [hmod]
      rw [if_neg (not_lt.mpr ha)]
    rw [hrot, jsToPythonRotation]
    rw [mul_div_assoc]
    rw [div_self (by norm_num : (55.6635311 : ℚ) ≠ 0)]
    ring
  · intro c h0 h1
    have hrl : ((⌊c * 256 + 1 / 2⌋ : ℤ) : ℚ) ≤ c * 256 + 1 / 2 := Int.floor_le _
    have hru : c * 256 + 1 / 2 < (⌊c * 256 + 1 / 2⌋ : ℚ) + 1 := Int.lt_floor_add_one _
    rw [pythonToJsColor, jsToPythonColor, jsMin_eq_min, jsRound]
    rcases le_or_lt (⌊c * 256 + 1 / 2⌋ : ℤ) 255 with hle | hgt
    · rw [min_eq_left (by exact_mod_cast hle), abs_le]
      constructor
      · have hd : c - 1 / 256 ≤ ((⌊c * 256 + 1 / 2⌋ : ℤ) : ℚ) / 256 := by
          rw [le_div_iff₀ (by norm_num : (0 : ℚ) < 256)]
          linarith
        linarith
      · have hd : ((⌊c * 256 + 1 / 2⌋ : ℤ) : ℚ) / 256 ≤ c + 1 / 256 := by
          rw [div_le_iff₀ (by norm_num : (0 : ℚ) < 256)]
          linarith
        linarith
    · rw [min_eq_right (le_of_lt (by exact_mod_cast hgt)), abs_le]
      have h255 : (255 : ℚ) < ((⌊c * 256 + 1 / 2⌋ : ℤ) : ℚ) := by
        exact_mod_cast hgt
      constructor <;> linarith

/-- C5 amended, witness: the round-trip statements at `r = 1` and `c = 1/2`. -/
theorem c5_amended_witness :
    jsToPythonRotation (pythonToJsRotation 1) = 1 ∧
    |jsToPythonColor (pythonToJsColor (1 / 2)) - 1 / 2| ≤ 1 / 256 :=
  ⟨c5_amended.1 1 (by norm_num) (by norm_num),
   c5_amended.2 (1 / 2) (by norm_num) (by norm_num)⟩

/-- C4 counterexample: at `c = -1` the code returns
`Math.min(Math.round(-256), 255) = -256`, while the spec formula
`clamp(round(c*256), 0, 255)` returns `0`: the code has no lower clamp. -/
theorem c4_counterexample : pythonToJsColor (-1) ≠ specClampColor (-1) := by
  have hr : jsRound ((-1) * 256) = -256 := by
    rw [jsRound, Int.floor_eq_iff]
    norm_num
  rw [pythonToJsColor, specClampColor, hr, jsMin_eq_min,
    min_eq_left (by norm_num : ((-256 : ℤ) : ℚ) ≤ 255),
    min_eq_left (by norm_num : (-256 : ℤ) ≤ 255),
    max_eq_left (by norm_num : (-256 : ℤ) ≤ 0)]
  norm_num

/-- C4 amended: the code computes `min(round(c*256), 255)` with no lower
clamp, but for every `c ∈ [0,1]` this agrees with the spec's
`clamp(round(c*256), 0, 255)` and lies in `[0, 255]`. -/
theorem c4_amended (c : ℚ) (h0 : 0 ≤ c) (_h1 : c ≤ 1) :
    pythonToJsColor c = specClampColor c ∧
    0 ≤ pythonToJsColor c ∧ pythonToJsColor c ≤ 255 := by
  have hr0 : (0 : ℤ) ≤ jsRound (c * 256) := by
    rw [jsRound, Int.le_floor]
    push_cast
    nlinarith
  have hmin0 : (0 : ℤ) ≤ min (jsRound (c * 256)) 255 :=
    le_min hr0 (by norm_num)
  have hspec : specClampColor c = ((min (jsRound (c * 256)) 255 : ℤ) : ℚ) := by
    rw [specClampColor, max_eq_right hmin0]
  have hcode : pythonToJsColor c = ((min (jsRound (c * 256)) 255 : ℤ) : ℚ) := by
    rw [pythonToJsColor, jsMin_eq_min]
    push_cast [Int.cast_min]
    norm_num
  refine ⟨by rw [hcode, hspec], ?_, ?_⟩
  · rw [hcode]
    exact_mod_cast hmin0
  · rw [hcode]
    have : min (jsRound (c * 256)) 255 ≤ (255 : ℤ) := min_le_right _ _
    exact_mod_cast this

/-- C4 amended, witness: the amended statement at `c = 1/2`. -/
theorem c4_amended_witness :
    pythonToJsColor (1 / 2) = specClampColor (1 / 2) ∧
    0 ≤ pythonToJsColor (1 / 2) ∧ pythonToJsColor (1 / 2) ≤ 255 :=
  c4_amended (1 / 2) (by norm_num) (by norm_num)

/-- A patch record as handled by `convertPatchFromPythonToJs`: every
convertible field is optional (`undefined` is `none`). -/
structure Patch where
  rotation : Option ℚ
  scale : Option ℚ
  squeeze : Option ℚ
  shear : Option ℚ
  red : Option ℚ
  green : Option ℚ
  blue : Option ℚ
deriving DecidableEq

/-- The empty patch, all fields absent. -/
def emptyPatch : Patch :=
  { rotation := none, scale := none, squeeze := none, shear := none,
    red := none, green := none, blue := none }

/-- First mutation of `convertPatchFromPythonToJs`: convert `rotation`
when present. -/
def stepRotation (r : Patch) : Patch :=
  match r.rotation with
  | some v => { r with rotation := some (pythonToJsRotation v) }
  | none => r

/-- Second mutation: convert `scale` when `scale`, `squeeze` and `shear`
are all present. -/
def stepScale (r : Patch) : Patch :=
  match r.scale, r.squeeze, r.shear with
  | some sc, some sq, some sh => { r with scale := some (pythonToJsScale sc sq sh) }
  | _, _, _ => r

/-- Third mutation: convert `squeeze` when `scale` and `squeeze` are
present; reads the (possibly already converted) current `scale`. -/
def stepSqueeze (r : Patch) : Patch :=
  match r.scale, r.squeeze with
  | some sc, some sq => { r with squeeze := some (pythonToJsSqueeze sc sq) }
  | _, _ => r

/-- Fourth mutation: convert `shear` when `scale` and `shear` are present;
reads the (possibly already converted) current `scale`. -/
def stepShear (r : Patch) : Patch :=
  match r.scale, r.shear with
  | some sc, some sh => { r with shear := some (pythonToJsShear sc sh) }
  | _, _ => r

/-- Color mutations: convert `red` when present. -/
def stepRed (r : Patch) : Patch :=
  match r.red with
  | some v => { r with red := some (pythonToJsColor v) }
  | none => r

/-- Color mutations: convert `green` when present. -/
def stepGreen (r : Patch) : Patch :=
  match r.green with
  | some v => { r with green := some (pythonToJsColor v) }
  | none => r

/-- Color mutations: convert `blue` when present. -/
def stepBlue (r : Patch) : Patch :=
  match r.blue with
  | some v => { r with blue := some (pythonToJsColor v) }
  | none => r

/-- `convertPatchFromPythonToJs` from coordinateUtils.ts: the sequential
in-place mutations of `result`, in source order. -/
def convertPatchFromPythonToJs (p : Patch) : Patch :=
  stepBlue (stepGreen (stepRed (stepShear (stepSqueeze (stepScale (stepRotation p))))))

@[simp] lemma stepRotation_scale (r : Patch) : (stepRotation r).scale = r.scale := by
  cases h : r.rotation <;> simp [stepRotation, h]

@[simp] lemma stepRotation_squeeze (r : Patch) : (stepRotation r).squeeze = r.squeeze := by
  cases h : r.rotation <;> simp [stepRotation, h]

@[simp] lemma stepRotation_shear (r : Patch) : (stepRotation r).shear = r.shear := by
  cases h : r.rotation <;> simp [stepRotation, h]

@[simp] lemma stepScale_squeeze (r : Patch) : (stepScale r).squeeze = r.squeeze := by
  cases h1 : r.scale <;> cases h2 : r.squeeze <;> cases h3 : r.shear <;>
    simp [stepScale, h1, h2, h3]

@[simp] lemma stepScale_shear (r : Patch) : (stepScale r).shear = r.shear := by
  cases h1 : r.scale <;> cases h2 : r.squeeze <;> cases h3 : r.shear <;>
    simp [stepScale, h1, h2, h3]

@[simp] lemma stepSqueeze_scale (r : Patch) : (stepSqueeze r).scale = r.scale := by
  cases h1 : r.scale <;> cases h2 : r.squeeze <;> simp [stepSqueeze, h1, h2]

@[simp] lemma stepSqueeze_shear (r : Patch) : (stepSqueeze r).shear = r.shear := by
  cases h1 : r.scale <;> cases h2 : r.squeeze <;> simp [stepSqueeze, h1, h2]

@[simp] lemma stepShear_squeeze (r : Patch) : (stepShear r).squeeze = r.squeeze := by
  cases h1 : r.scale <;> cases h2 : r.shear <;> simp [stepShear, h1, h2]

@[simp] lemma stepRed_squeeze (r : Patch) : (stepRed r).squeeze = r.squeeze := by
  cases h : r.red <;> simp [stepRed, h]

@[simp] lemma stepRed_shear (r : Patch) : (stepRed r).shear = r.shear := by
  cases h : r.red <;> simp [stepRed, h]

@[simp] lemma stepGreen_squeeze (r : Patch) : (stepGreen r).squeeze = r.squeeze := by
  cases h : r.green <;> simp [stepGreen, h]

@[simp] lemma stepGreen_shear (r : Patch) : (stepGreen r).shear = r.shear := by
  cases h : r.green <;> simp [stepGreen, h]

@[simp] lemma stepBlue_squeeze (r : Patch) : (stepBlue r).squeeze = r.squeeze := by
  cases h : r.blue <;> simp [stepBlue, h]

@[simp] lemma stepBlue_shear (r : Patch) : (stepBlue r).shear = r.shear := by
  cases h : r.blue <;> simp [stepBlue, h]

lemma stepScale_scale_of_all (r : Patch) (sc sq sh : ℚ)
    (h1 : r.scale = some sc) (h2 : r.squeeze = some sq) (h3 : r.shear = some sh) :
    (stepScale r).scale = some (pythonToJsScale sc sq sh) := by
  simp [stepScale, h1, h2, h3]

lemma stepScale_scale_of_no_shear (r : Patch) (h3 : r.shear = none) :
    (stepScale r).scale = r.scale := by
  cases h1 : r.scale <;> cases h2 : r.squeeze <;> simp [stepScale, h1, h2, h3]

lemma stepScale_scale_of_no_squeeze (r : Patch) (h2 : r.squeeze = none) :
    (stepScale r).scale = r.scale := by
  cases h1 : r.scale <;> cases h3 : r.shear <;> simp [stepScale, h1, h2, h3]

lemma stepSqueeze_squeeze_of_both (r : Patch) (sc sq : ℚ)
    (h1 : r.scale = some sc) (h2 : r.squeeze = some sq) :
    (stepSqueeze r).squeeze = some (pythonToJsSqueeze sc sq) := by
  simp [stepSqueeze, h1, h2]

lemma stepShear_shear_of_both (r : Patch) (sc sh : ℚ)
    (h1 : r.scale = some sc) (h2 : r.shear = some sh) :
    (stepShear r).shear = some (pythonToJsShear sc sh) := by
  simp [stepShear, h1, h2]

/-- The remote patch `{scale: 1, squeeze: 1, shear: 1}` used to refute C2. -/
def c2Patch : Patch := { emptyPatch with scale := some 1, squeeze := some 1, shear := some 1 }

/-- C2 counterexample: on `{scale:1, squeeze:1, shear:1}` the converted
`squeeze` is NOT `remote.scale * 0.064294401 + remote.squeeze * 0.00870305`:
the squeeze step runs after the scale step and therefore reads the already
converted local scale, not the remote scale. -/
theorem c2_counterexample :
    (convertPatchFromPythonToJs c2Patch).squeeze ≠ some (pythonToJsSqueeze 1 1) := by
  have hsc : (stepScale (stepRotation c2Patch)).scale =
      some (pythonToJsScale 1 1 1) := by
    apply stepScale_scale_of_all <;> simp [stepRotation, c2Patch, emptyPatch]
  have hsq : (convertPatchFromPythonToJs c2Patch).squeeze =
      some (pythonToJsSqueeze (pythonToJsScale 1 1 1) 1) := by
    rw [convertPatchFromPythonToJs, stepBlue_squeeze, stepGreen_squeeze,
      stepRed_squeeze, stepShear_squeeze]
    apply stepSqueeze_squeeze_of_both _ _ _ hsc
    rw [stepScale_squeeze, stepRotation_squeeze]
    simp [c2Patch]
  rw [hsq]
  intro hcontra
  rw [Option.some.injEq] at hcontra
  rw [pythonToJsSqueeze, pythonToJsSqueeze, pythonToJsScale] at hcontra
  norm_num at hcontra

/-- The scale value that the squeeze and shear conversion steps actually
read: the already converted local scale when the scale step ran (all three
of scale, squeeze, shear present), otherwise the untouched remote scale. -/
def scaleSeenAfterScaleStep (p : Patch) (sc : ℚ) : ℚ :=
  match p.squeeze, p.shear with
  | some sq, some sh => pythonToJsScale sc sq sh
  | _, _ => sc

/-- C2 amended: when `scale` and `squeeze` are present,
`convertPatchFromPythonToJs` sets `squeeze` to
`s * 0.064294401 + remote.squeeze * 0.00870305` where `s` is the CURRENT
scale at that point — the already converted local scale if `shear` was also
present (so the scale step ran first), else the remote scale. The squeeze
step itself writes no other field. -/
theorem c2_amended (p : Patch) (sc sq : ℚ)
    (hsc : p.scale = some sc) (hsq : p.squeeze = some sq) :
    (convertPatchFromPythonToJs p).squeeze =
      some (pythonToJsSqueeze (scaleSeenAfterScaleStep p sc) sq) ∧
    (∀ q : Patch, (stepSqueeze q).rotation = q.rotation ∧
      (stepSqueeze q).scale = q.scale ∧ (stepSqueeze q).shear = q.shear ∧
      (stepSqueeze q).red = q.red ∧ (stepSqueeze q).green = q.green ∧
      (stepSqueeze q).blue = q.blue) := by
  constructor
  · have hscale : (stepScale (stepRotation p)).scale =
        some (scaleSeenAfterScaleStep p sc) := by
      cases hsh : p.shear with
      | none =>
        rw [stepScale_scale_of_no_shear _ (by rw [stepRotation_shear]; exact hsh),
          stepRotation_scale, hsc]
        simp [scaleSeenAfterScaleStep, hsh]
      | some sh =>
        rw [stepScale_scale_of_all _ sc sq sh (by rw [stepRotation_scale]; exact hsc)
          (by rw [stepRotation_squeeze]; exact hsq) (by rw [stepRotation_shear]; exact hsh)]
        simp [scaleSeenAfterScaleStep, hsq, hsh]
    rw [convertPatchFromPythonToJs, stepBlue_squeeze, stepGreen_squeeze,
      stepRed_squeeze, stepShear_squeeze]
    apply stepSqueeze_squeeze_of_both _ _ _ hscale
    rw [stepScale_squeeze, stepRotation_squeeze]
    exact hsq
  · intro q
    cases h1 : q.scale <;> cases h2 : q.squeeze <;>
      simp [stepSqueeze, h1, h2]

/-- C2 amended, witness: the amended statement on `{scale:1, squeeze:1, shear:1}`. -/
theorem c2_amended_witness :
    (convertPatchFromPythonToJs c2Patch).squeeze =
      some (pythonToJsSqueeze (scaleSeenAfterScaleStep c2Patch 1) 1) :=
  (c2_amended c2Patch 1 1 rfl rfl).1

/-- The remote patch `{scale: 1, squeeze: 0, shear: 0}` used to refute C3. -/
def c3Patch : Patch := { emptyPatch with scale := some 1, squeeze := some 0, shear := some 0 }

/-- C3 counterexample: on `{scale:1, squeeze:0, shear:0}` the claim's
formula `remote.squeeze * 0.013955148 + remote.shear * 0.939783266` gives
`0`, but the code passes the current (already converted) scale — not the
squeeze parameter — as the first argument of the shear conversion, giving a
nonzero result. -/
theorem c3_counterexample :
    (convertPatchFromPythonToJs c3Patch).shear ≠ some (pythonToJsShear 0 0) := by
  have hsc : (stepScale (stepRotation c3Patch)).scale =
      some (pythonToJsScale 1 0 0) := by
    apply stepScale_scale_of_all <;> simp [stepRotation, c3Patch, emptyPatch]
  have hsh : (convertPatchFromPythonToJs c3Patch).shear =
      some (pythonToJsShear (pythonToJsScale 1 0 0) 0) := by
    rw [convertPatchFromPythonToJs, stepBlue_shear, stepGreen_shear, stepRed_shear]
    apply stepShear_shear_of_both
    · rw [stepSqueeze_scale]
      exact hsc
    · rw [stepSqueeze_shear, stepScale_shear, stepRotation_shear]
      simp [c3Patch]
  rw [hsh]
  intro hcontra
  rw [Option.some.injEq] at hcontra
  rw [pythonToJsShear, pythonToJsShear, pythonToJsScale] at hcontra
  norm_num at hcontra

/-- C3 amended: when `scale` and `shear` are present,
`convertPatchFromPythonToJs` sets `shear` to
`s * 0.013955148 + remote.shear * 0.939783266` where `s` is the CURRENT
scale value at that point (the converted local scale when the scale step
ran, else the remote scale) — the first term is fed by the scale value, not
by the remote squeeze parameter, despite the parameter's name. -/
theorem c3_amended (p : Patch) (sc sh : ℚ)
    (hsc : p.scale = some sc) (hsh : p.shear = some sh) :
    (convertPatchFromPythonToJs p).shear =
      some (pythonToJsShear (scaleSeenAfterScaleStep p sc) sh) := by
  have hscale : (stepScale (stepRotation p)).scale =
      some (scaleSeenAfterScaleStep p sc) := by
    cases hsq : p.squeeze with
    | none =>
      rw [stepScale_scale_of_no_squeeze _ (by rw [stepRotation_squeeze]; exact hsq),
        stepRotation_scale, hsc]
      simp [scaleSeenAfterScaleStep, hsq]
    | some sq =>
      rw [stepScale_scale_of_all _ sc sq sh (by rw [stepRotation_scale]; exact hsc)
        (by rw [stepRotation_squeeze]; exact hsq) (by rw [stepRotation_shear]; exact hsh)]
      simp [scaleSeenAfterScaleStep, hsq, hsh]
  rw [convertPatchFromPythonToJs, stepBlue_shear, stepGreen_shear, stepRed_shear]
  apply stepShear_shear_of_both
  · rw [stepSqueeze_scale]
    exact hscale
  · rw [stepSqueeze_shear, stepScale_shear, stepRotation_shear]
    exact hsh

/-- C3 amended, witness: the amended statement on `{scale:1, squeeze:0, shear:0}`. -/
theorem c3_amended_witness :
    (convertPatchFromPythonToJs c3Patch).shear =
      some (pythonToJsShear (scaleSeenAfterScaleStep c3Patch 1) 0) :=
  c3_amended c3Patch 1 0 rfl rfl

/-! ## The polling loop of `VectorGraphicsForm.tsx` (`pollPrediction`) -/

/-- The status enum of a prediction response. -/
inductive Status
  | starting
  | processing
  | succeeded
  | failed
  | canceled
deriving DecidableEq

/-- A `PredictionResponse`: status, optional output list, optional error. -/
structure Prediction where
  status : Status
  output : Option (List String)
  error : Option String
deriving DecidableEq

/-- One answer of `getPrediction` for one attempt: `none` models the fetch
or parse throwing, `some p` a parsed response. -/
abbrev PollResponse := Option Prediction

/-- Length of the output list (`0` when output is absent). -/
def outputLen (p : Prediction) : Nat := (p.output.getD []).length

/-- Observable actions of one `pollPrediction` run: a status query (tagged
with its attempt number), a timed wait in milliseconds, and a progress
update (`setGeneratedImages`) recording a new output length. -/
inductive Event
  | query : Nat → Event
  | sleep : ℚ → Event
  | progress : Nat → Event
deriving DecidableEq

/-- How one `pollPrediction` run ends: the returned (resolved) prediction,
the timeout rejection, or the unreachable return of an unassigned
`prediction` variable. -/
inductive Outcome
  | resolved : Prediction → Outcome
  | timedOut : Outcome
  | undefinedResult : Outcome
deriving DecidableEq

/-- The loop-local variables of `pollPrediction`: `attempts`, `delay`,
`lastOutputLength`, and the last value assigned to `prediction`. -/
structure PollState where
  attempts : Nat
  delay : ℚ
  lastOutputLength : Nat
  lastPred : Option Prediction
deriving DecidableEq

/-- Result of one do-while iteration: updated variables, emitted events,
and the early-return value if the iteration hit `return prediction`. -/
structure StepOut where
  state : PollState
  events : List Event
  early : Option Prediction
deriving DecidableEq

/-- `maxAttempts = 180` from the source. -/
def maxAttempts : Nat := 180

/-- One iteration of the do-while body of `pollPrediction`. A thrown error
— from `getPrediction` itself or from the `failed`/`canceled` check — is
caught by the catch block of the same iteration, which waits
`min(delay*2, 10000)` without touching `delay` or `lastOutputLength`. -/
def pollStep (resp : PollResponse) (s : PollState) : StepOut :=
  let a := s.attempts + 1
  match resp with
  | none =>
    { state := { s with attempts := a },
      events := [Event.query a, Event.sleep (jsMin (s.delay * 2) 10000)],
      early := none }
  | some p =>
    if p.status = Status.failed ∨ p.status = Status.canceled then
      { state := { s with attempts := a, lastPred := some p },
        events := [Event.query a, Event.sleep (jsMin (s.delay * 2) 10000)],
        early := none }
    else
      let len := outputLen p
      let last1 := if 0 < len ∧ s.lastOutputLength < len then len else s.lastOutputLength
      let progressEvents :=
        if 0 < len ∧ s.lastOutputLength < len then [Event.progress len] else []
      if 0 < len ∧ p.status = Status.succeeded then
        { state := { s with attempts := a, lastOutputLength := last1, lastPred := some p },
          events := Event.query a :: progressEvents,
          early := some p }
      else
        let d := if p.status = Status.processing then (2000 : ℚ) else jsMin (s.delay * 1.5) 5000
        { state := { attempts := a, delay := d, lastOutputLength := last1, lastPred := some p },
          events := Event.query a :: progressEvents ++ [Event.sleep d],
          early := none }

/-- Is the status one of the three terminal states tested by the while
condition? -/
def isTerminal (st : Status) : Bool :=
  match st with
  | Status.succeeded => true
  | Status.failed => true
  | Status.canceled => true
  | _ => false

/-- The while condition:
`attempts < maxAttempts && (!prediction || status not terminal)`. -/
def loopCond (s : PollState) : Bool :=
  decide (s.attempts < maxAttempts) &&
    (match s.lastPred with
     | none => true
     | some p => ! isTerminal p.status)

/-- The code after the loop: throw the timeout error when the budget is
spent, otherwise return `prediction`. -/
def finishOutcome (s : PollState) : Outcome :=
  if maxAttempts ≤ s.attempts then Outcome.timedOut
  else
    match s.lastPred with
    | some p => Outcome.resolved p
    | none => Outcome.undefinedResult

/-- The do-while loop, driven by the per-attempt responses
(`responses n` answers attempt `n+1`). The fuel argument only bounds the
recursion; with fuel `maxAttempts - attempts` it never runs out because the
while condition requires `attempts < maxAttempts`. -/
def pollGo (responses : Nat → PollResponse) : Nat → PollState → List Event × Outcome
  | 0, s => ([], finishOutcome s)
  | fuel + 1, s =>
    let so := pollStep (responses s.attempts) s
    match so.early with
    | some p => (so.events, Outcome.resolved p)
    | none =>
      if loopCond so.state then
        let rest := pollGo responses fuel so.state
        (so.events ++ rest.1, rest.2)
      else (so.events, finishOutcome so.state)

/-- The initial loop variables of `pollPrediction`. -/
def initState : PollState :=
  { attempts := 0, delay := 1000, lastOutputLength := 0, lastPred := none }

/-- `pollPrediction`: the whole run, returning the emitted events and the
outcome. -/
def pollPrediction (responses : Nat → PollResponse) : List Event × Outcome :=
  pollGo responses maxAttempts initState

/-- Recognize query events. -/
def isQuery : Event → Bool
  | Event.query _ => true
  | _ => false

/-- Number of status queries issued during a run. -/
def numQueries (evs : List Event) : Nat := (evs.filter isQuery).length

/-- Extract the output length of a progress event. -/
def progressLen : Event → Option Nat
  | Event.progress n => some n
  | _ => none

/-- The sequence of output lengths at which progress updates fired. -/
def progressLengths (evs : List Event) : List Nat := evs.filterMap progressLen

lemma numQueries_append (a b : List Event) :
    numQueries (a ++ b) = numQueries a + numQueries b := by
  simp [numQueries, List.filter_append]

lemma progressLengths_append (a b : List Event) :
    progressLengths (a ++ b) = progressLengths a ++ progressLengths b := by
  simp [progressLengths]

/-- One-iteration unfolding of the do-while loop. -/
lemma pollGo_succ (responses : Nat → PollResponse) (fuel : Nat) (s : PollState) :
    pollGo responses (fuel + 1) s =
      (match (pollStep (responses s.attempts) s).early with
       | some p => ((pollStep (responses s.attempts) s).events, Outcome.resolved p)
       | none =>
         if loopCond (pollStep (responses s.attempts) s).state then
           ((pollStep (responses s.attempts) s).events ++
              (pollGo responses fuel (pollStep (responses s.attempts) s).state).1,
            (pollGo responses fuel (pollStep (responses s.attempts) s).state).2)
         else
           ((pollStep (responses s.attempts) s).events,
            finishOutcome (pollStep (responses s.attempts) s).state)) := rfl

/-- The response sequence refuting C1: `processing` on attempt 1, then
`failed` with detail message on attempt 2. -/
def c1Responses : Nat → PollResponse := fun n =>
  if n = 0 then some { status := Status.processing, output := none, error := none }
  else some { status := Status.failed, output := none, error := some ( "bad prompt") }

/-- C1: what the code actually does on the claim's failing input. The
`throw new Error(prediction.error || ...)` for a `failed`/`canceled` status
sits inside the same `try` whose `catch` handles poll errors, so the
rejection is swallowed: the loop sleeps once more, exits, and RESOLVES with
the failed prediction object instead of rejecting with the error detail.
No further status query is issued (2 in total), matching that part of the
claim. -/
theorem c1_code_behavior :
    (pollPrediction c1Responses).2 =
      Outcome.resolved { status := Status.failed, output := none, error := some ( "bad prompt") } ∧
    numQueries (pollPrediction c1Responses).1 = 2 := by
  decide

/-- A response that always reports `processing` with no output entries. -/
def procNoOut (r : PollResponse) : Prop :=
  ∃ p, r = some p ∧ p.status = Status.processing ∧ outputLen p = 0

lemma pollStep_procNoOut (s : PollState) (p : Prediction)
    (hst : p.status = Status.processing) (hlen : outputLen p = 0) :
    pollStep (some p) s =
      { state := { attempts := s.attempts + 1, delay := 2000,
                   lastOutputLength := s.lastOutputLength, lastPred := some p },
        events := [Event.query (s.attempts + 1), Event.sleep 2000],
        early := none } := by
  simp [pollStep, hst, hlen]

lemma pollGo_procNoOut_run (responses : Nat → PollResponse)
    (hresp : ∀ n, procNoOut (responses n)) :
    ∀ fuel s, 0 < fuel → s.attempts + fuel = maxAttempts →
      (pollGo responses fuel s).2 = Outcome.timedOut ∧
      numQueries (pollGo responses fuel s).1 = fuel := by
  intro fuel
  induction fuel with
  | zero =>
    intro s h0 _
    exact absurd h0 (lt_irrefl 0)
  | succ f ih =>
    intro s _ hsum
    obtain ⟨p, hp, hst, hlen⟩ := hresp s.attempts
    have hstep := pollStep_procNoOut s p hst hlen
    rw [pollGo_succ, hp, hstep]
    simp only [loopCond, isTerminal, hst, Bool.not_false, Bool.and_true]
    rcases Nat.eq_zero_or_pos f with hf0 | hfpos
    · subst hf0
      have h179 : s.attempts = 179 := by
        rw [maxAttempts] at hsum
        omega
      rw [if_neg (by simp [maxAttempts, h179])]
      constructor
      · simp [finishOutcome, maxAttempts, h179]
      · simp [numQueries, isQuery]
    · have hlt : s.attempts + 1 < maxAttempts := by
        rw [maxAttempts] at *
        omega
      rw [if_pos (by simp [hlt])]
      obtain ⟨ho, hn⟩ :=
        ih (⟨s.attempts + 1, 2000, s.lastOutputLength, some p⟩ : PollState) hfpos
          (by simp; omega)
      refine ⟨ho, ?_⟩
      rw [numQueries_append, hn]
      simp [numQueries, isQuery]
      omega

/-- C7: whenever every status query answers `processing` with no output,
`pollPrediction` issues exactly 180 status queries and then rejects with
the timeout error; it never resolves. -/
theorem c7_timeout (responses : Nat → PollResponse)
    (hresp : ∀ n, procNoOut (responses n)) :
    (pollPrediction responses).2 = Outcome.timedOut ∧
    numQueries (pollPrediction responses).1 = 180 :=
  pollGo_procNoOut_run responses hresp maxAttempts initState
    (by rw [maxAttempts]; omega) rfl

/-- The concrete always-processing response sequence. -/
def c7Responses : Nat → PollResponse := fun _ =>
  some { status := Status.processing, output := none, error := none }

/-- C7, witness: the theorem applied to the concrete always-processing
sequence. -/
theorem c7_timeout_witness :
    (pollPrediction c7Responses).2 = Outcome.timedOut ∧
    numQueries (pollPrediction c7Responses).1 = 180 :=
  c7_timeout c7Responses (fun _ => ⟨_, rfl, rfl, rfl⟩)

/-- The loop state after a thrown first attempt: only the attempt counter
moved. -/
def c8StateAfterThrow : PollState :=
  { attempts := 1, delay := 1000, lastOutputLength := 0, lastPred := none }

/-- C8: a status query that throws does not abort the loop. First part:
the iteration of a thrown query emits the query and a
`min(delay*2, 10000)` wait, advances only the attempt counter (counting
the attempt toward the budget), performs no early return, and leaves
`delay`, `lastOutputLength` and `prediction` untouched so the loop
retries. Second part: a throw on attempt 1 followed by a succeeded
response with nonempty output on attempt 2 resolves successfully with
exactly 2 status queries. -/
theorem c8_transient_error :
    (∀ s : PollState, pollStep none s =
      { state := { s with attempts := s.attempts + 1 },
        events := [Event.query (s.attempts + 1), Event.sleep (jsMin (s.delay * 2) 10000)],
        early := none }) ∧
    (∀ (responses : Nat → PollResponse) (out : List String) (err : Option String),
      responses 0 = none →
      responses 1 = some { status := Status.succeeded, output := some out, error := err } →
      0 < out.length →
      (pollPrediction responses).2 =
        Outcome.resolved { status := Status.succeeded, output := some out, error := err } ∧
      numQueries (pollPrediction responses).1 = 2) := by
  constructor
  · intro s
    rfl
  · intro responses out err h0 h1 hlen
    have e1 : pollStep (responses initState.attempts) initState =
        { state := c8StateAfterThrow,
          events := [Event.query 1, Event.sleep (jsMin (initState.delay * 2) 10000)],
          early := none } := by
      rw [show initState.attempts = (0 : Nat) from rfl, h0]
      rfl
    have hc : loopCond c8StateAfterThrow = true := by decide
    have e2 : pollStep (responses 1) c8StateAfterThrow =
        { state := ⟨2, 1000, out.length,
            some { status := Status.succeeded, output := some out, error := err }⟩,
          events := [Event.query 2, Event.progress out.length],
          early := some { status := Status.succeeded, output := some out, error := err } } := by
      rw [h1]
      simp [pollStep, c8StateAfterThrow, outputLen, hlen]
    rw [pollPrediction, show maxAttempts = 179 + 1 from rfl, pollGo_succ, e1]
    simp only [hc, if_true]
    rw [show (179 : Nat) = 178 + 1 from rfl, pollGo_succ,
      show c8StateAfterThrow.attempts = (1 : Nat) from rfl, e2]
    simp [numQueries, isQuery, numQueries_append]

/-- The concrete throw-then-succeed response sequence for C8. -/
def c8Responses : Nat → PollResponse := fun n =>
  if n = 0 then none
  else some { status := Status.succeeded, output := some [ "img"], error := none }

/-- C8, witness: the scenario part applied to the concrete sequence. -/
theorem c8_transient_error_witness :
    (pollPrediction c8Responses).2 =
      Outcome.resolved { status := Status.succeeded, output := some [ "img"], error := none } ∧
    numQueries (pollPrediction c8Responses).1 = 2 :=
  c8_transient_error.2 c8Responses [ "img"] none rfl rfl (by norm_num)

/-- Unfolding of one iteration when it early-returns. -/
lemma pollGo_succ_early (responses : Nat → PollResponse) (fuel : Nat) (s : PollState)
    (p : Prediction) (hE : (pollStep (responses s.attempts) s).early = some p) :
    pollGo responses (fuel + 1) s =
      ((pollStep (responses s.attempts) s).events, Outcome.resolved p) := by
  rw [pollGo_succ, hE]

/-- Unfolding of one iteration when the loop continues. -/
lemma pollGo_succ_cont (responses : Nat → PollResponse) (fuel : Nat) (s : PollState)
    (hE : (pollStep (responses s.attempts) s).early = none)
    (hc : loopCond (pollStep (responses s.attempts) s).state = true) :
    pollGo responses (fuel + 1) s =
      ((pollStep (responses s.attempts) s).events ++
         (pollGo responses fuel (pollStep (responses s.attempts) s).state).1,
       (pollGo responses fuel (pollStep (responses s.attempts) s).state).2) := by
  rw [pollGo_succ, hE]
  simp [hc]

/-- Unfolding of one iteration when the while condition stops the loop. -/
lemma pollGo_succ_stop (responses : Nat → PollResponse) (fuel : Nat) (s : PollState)
    (hE : (pollStep (responses s.attempts) s).early = none)
    (hc : loopCond (pollStep (responses s.attempts) s).state = false) :
    pollGo responses (fuel + 1) s =
      ((pollStep (responses s.attempts) s).events,
       finishOutcome (pollStep (responses s.attempts) s).state) := by
  rw [pollGo_succ, hE]
  simp [hc]

/-- Every iteration either fires no progress update and keeps
`lastOutputLength`, or fires exactly one progress update at the new,
strictly larger `lastOutputLength`. -/
lemma pollStep_progress_spec (r : PollResponse) (s : PollState) :
    (progressLengths (pollStep r s).events = [] ∧
      (pollStep r s).state.lastOutputLength = s.lastOutputLength) ∨
    (progressLengths (pollStep r s).events = [(pollStep r s).state.lastOutputLength] ∧
      s.lastOutputLength < (pollStep r s).state.lastOutputLength) := by
  cases r with
  | none =>
    left
    simp [pollStep, progressLengths, progressLen]
  | some p =>
    by_cases hfc : p.status = Status.failed ∨ p.status = Status.canceled
    · left
      simp [pollStep, hfc, progressLengths, progressLen]
    · by_cases h0 : 0 < outputLen p
      · by_cases hlt : s.lastOutputLength < outputLen p
        · right
          by_cases hs : p.status = Status.succeeded
          · simp [pollStep, hfc, h0, hlt, hs, progressLengths, progressLen]
          · simp [pollStep, hfc, h0, hlt, hs, progressLengths, progressLen]
        · left
          by_cases hs : p.status = Status.succeeded
          · simp [pollStep, hfc, h0, hlt, hs, progressLengths, progressLen]
          · simp [pollStep, hfc, h0, hlt, hs, progressLengths, progressLen]
      · left
        simp [pollStep, hfc, h0, progressLengths, progressLen]

/-- Along any run, `lastOutputLength` at entry is a strict lower bound for
the (strictly increasing) sequence of progress-update lengths. -/
lemma pollGo_progress_chain (responses : Nat → PollResponse) :
    ∀ fuel s, List.Chain' (fun a b => a < b)
      (s.lastOutputLength :: progressLengths (pollGo responses fuel s).1) := by
  intro fuel
  induction fuel with
  | zero =>
    intro s
    simp [pollGo, progressLengths]
  | succ f ih =>
    intro s
    rcases hE : (pollStep (responses s.attempts) s).early with _ | p
    · cases hcb : loopCond (pollStep (responses s.attempts) s).state with
      | true =>
        rw [pollGo_succ_cont responses f s hE hcb, progressLengths_append]
        rcases pollStep_progress_spec (responses s.attempts) s with ⟨hpl, hlast⟩ | ⟨hpl, hlast⟩
        · rw [hpl, List.nil_append]
          have hch := ih (pollStep (responses s.attempts) s).state
          rw [hlast] at hch
          exact hch
        · rw [hpl, List.singleton_append, List.chain'_cons]
          exact ⟨hlast, ih _⟩
      | false =>
        rw [pollGo_succ_stop responses f s hE hcb]
        rcases pollStep_progress_spec (responses s.attempts) s with ⟨hpl, _⟩ | ⟨hpl, hlast⟩
        · rw [hpl]
          simp
        · rw [hpl]
          simp [hlast]
    · rw [pollGo_succ_early responses f s p hE]
      rcases pollStep_progress_spec (responses s.attempts) s with ⟨hpl, _⟩ | ⟨hpl, hlast⟩
      · rw [hpl]
        simp
      · rw [hpl]
        simp [hlast]

/-- C9: progress updates (`setGeneratedImages` calls). Part 1: an
iteration fires a progress update exactly when a non-failed response
carries an output list strictly longer than `lastOutputLength`, which is
then set to that length. Part 2: otherwise nothing fires and
`lastOutputLength` is unchanged. Part 3: over any whole run, the progress
lengths are strictly increasing — never two updates for the same length.
Part 4: a first poll answering `succeeded` with one output entry yields
exactly one progress update, at length 1. -/
theorem c9_progress_updates :
    (∀ (s : PollState) (p : Prediction),
      ¬(p.status = Status.failed ∨ p.status = Status.canceled) →
      s.lastOutputLength < outputLen p →
      progressLengths (pollStep (some p) s).events = [outputLen p] ∧
      (pollStep (some p) s).state.lastOutputLength = outputLen p) ∧
    (∀ (r : PollResponse) (s : PollState),
      (∀ p, r = some p → p.status = Status.failed ∨ p.status = Status.canceled ∨
        outputLen p ≤ s.lastOutputLength) →
      progressLengths (pollStep r s).events = [] ∧
      (pollStep r s).state.lastOutputLength = s.lastOutputLength) ∧
    (∀ responses : Nat → PollResponse,
      List.Chain' (fun a b => a < b) (progressLengths (pollPrediction responses).1)) ∧
    (∀ (responses : Nat → PollResponse) (out : List String) (err : Option String),
      responses 0 = some { status := Status.succeeded, output := some out, error := err } →
      out.length = 1 →
      progressLengths (pollPrediction responses).1 = [1]) := by
  refine ⟨?_, ?_, ?_, ?_⟩
  · intro s p hfc hlt
    have h0 : 0 < outputLen p := lt_of_le_of_lt (Nat.zero_le _) hlt
    by_cases hsucc : p.status = Status.succeeded
    · simp [pollStep, hfc, h0, hlt, hsucc, progressLengths, progressLen]
    · simp [pollStep, hfc, h0, hlt, hsucc, progressLengths, progressLen]
  · intro r s h
    cases r with
    | none => simp [pollStep, progressLengths, progressLen]
    | some p =>
      by_cases hfc : p.status = Status.failed ∨ p.status = Status.canceled
      · simp [pollStep, hfc, progressLengths, progressLen]
      · have hle : outputLen p ≤ s.lastOutputLength := by
          rcases h p rfl with h1 | h1 | h1
          · exact absurd (Or.inl h1) hfc
          · exact absurd (Or.inr h1) hfc
          · exact h1
        have hlt : ¬ s.lastOutputLength < outputLen p := by omega
        by_cases h0 : 0 < outputLen p
        · by_cases hs : p.status = Status.succeeded
          · simp [pollStep, hfc, h0, hlt, hs, progressLengths, progressLen]
          · simp [pollStep, hfc, h0, hlt, hs, progressLengths, progressLen]
        · simp [pollStep, hfc, h0, progressLengths, progressLen]
  · intro responses
    exact (pollGo_progress_chain responses maxAttempts initState).tail
  · intro responses out err h0 hlen1
    have e : pollStep (responses initState.attempts) initState =
        { state := ⟨1, 1000, 1,
            some { status := Status.succeeded, output := some out, error := err }⟩,
          events := [Event.query 1, Event.progress 1],
          early := some { status := Status.succeeded, output := some out, error := err } } := by
      rw [show initState.attempts = (0 : Nat) from rfl, h0]
      simp [pollStep, initState, outputLen, hlen1]
    rw [pollPrediction, show maxAttempts = 179 + 1 from rfl, pollGo_succ, e]
    simp [progressLengths, progressLen]

/-- The concrete immediately-succeeding response sequence for C9. -/
def c9Responses : Nat → PollResponse := fun _ =>
  some { status := Status.succeeded, output := some [ "img"], error := none }

/-- C9, witness: the single-progress-update scenario on the concrete
sequence. -/
theorem c9_progress_updates_witness :
    progressLengths (pollPrediction c9Responses).1 = [1] :=
  c9_progress_updates.2.2.2 c9Responses [ "img"] none rfl rfl

/-- The response sequence refuting C10 as stated: `processing` for 179
attempts, then `succeeded` with an EMPTY output list on attempt 180. -/
def c10Responses : Nat → PollResponse := fun n =>
  if n < 179 then some { status := Status.processing, output := none, error := none }
  else some { status := Status.succeeded, output := some [], error := none }

/-- C10 counterexample: when the succeeded-with-empty-output response
arrives on the 180th (final) attempt, the post-loop check
`attempts >= maxAttempts` fires first and `pollPrediction` rejects with
the timeout error — it does not resolve with the succeeded prediction. -/
theorem c10_counterexample :
    (pollPrediction c10Responses).2 = Outcome.timedOut := by
  decide

/-- C10 amended: if a status query returns `succeeded` with an empty or
absent output list on any attempt BEFORE the 180th, the loop does not
reject and does not return immediately: it sleeps one more backoff delay
`min(delay * 1.5, 5000)` (the status is not `processing`), issues no
further status query, and resolves with that succeeded prediction. On the
180th attempt the timeout check fires instead (see the counterexample). -/
theorem c10_amended (responses : Nat → PollResponse) (s : PollState) (fuel : Nat)
    (p : Prediction)
    (hfuel : s.attempts + fuel = maxAttempts)
    (hlast : s.attempts + 1 < maxAttempts)
    (hresp : responses s.attempts = some p)
    (hst : p.status = Status.succeeded)
    (hout : outputLen p = 0) :
    pollGo responses fuel s =
      ([Event.query (s.attempts + 1), Event.sleep (jsMin (s.delay * 1.5) 5000)],
       Outcome.resolved p) := by
  obtain ⟨f, rfl⟩ : ∃ f, fuel = f + 1 := by
    cases fuel with
    | zero =>
      exfalso
      rw [maxAttempts] at hfuel hlast
      omega
    | succ f => exact ⟨f, rfl⟩
  have hstep : pollStep (responses s.attempts) s =
      { state := ⟨s.attempts + 1, jsMin (s.delay * 1.5) 5000, s.lastOutputLength, some p⟩,
        events := [Event.query (s.attempts + 1), Event.sleep (jsMin (s.delay * 1.5) 5000)],
        early := none } := by
    rw [hresp]
    simp [pollStep, hst, hout]
  have hE : (pollStep (responses s.attempts) s).early = none := by rw [hstep]
  have hc : loopCond (pollStep (responses s.attempts) s).state = false := by
    rw [hstep]
    simp [loopCond, isTerminal, hst]
  have hnt : ¬ (maxAttempts ≤ s.attempts + 1) := not_le.mpr hlast
  rw [pollGo_succ_stop responses f s hE hc, hstep]
  simp [finishOutcome, hnt]

/-- The concrete sequence for the C10 witness: succeeded with empty output
already on attempt 1. -/
def c10wResponses : Nat → PollResponse := fun _ =>
  some { status := Status.succeeded, output := some [], error := none }

/-- C10 amended, witness: succeeded-with-empty-output on attempt 1 sleeps
`min(1000 * 1.5, 5000)` once and resolves. -/
theorem c10_amended_witness :
    pollGo c10wResponses maxAttempts initState =
      ([Event.query 1, Event.sleep (jsMin (initState.delay * 1.5) 5000)],
       Outcome.resolved { status := Status.succeeded, output := some [], error := none }) :=
  c10_amended c10wResponses initState maxAttempts
    { status := Status.succeeded, output := some [], error := none }
    rfl (by decide) rfl rfl rfl

end GenArt
